import Mathlib

/-!
Shallow embedding of the fuse-rs repository: the sample in-memory
filesystem (`src/memory.rs`) and the session run loops (`src/session.rs`).

Maps (`HashMap`) are embedded as functions `Nat → Option _`; Rust byte
vectors as `List Nat`; a Rust `panic` (failed `unwrap`, out-of-bounds
slice) is embedded as the `none` branch of an `Option` result.
-/

/-- Raw OS error code ENOENT (no such entity), value 2 on Linux. -/
def ENOENT : Nat := 2

/-- Raw OS error code EINTR (interrupted system call), value 4 on Linux. -/
def EINTR : Nat := 4

/-- Raw OS error code EAGAIN (try again), value 11 on Linux. -/
def EAGAIN : Nat := 11

/-- Raw OS error code ENODEV (no such device), value 19 on Linux. -/
def ENODEV : Nat := 19

/-- The file kinds used by the in-memory filesystem. -/
inductive FileType where
  | Directory
  | RegularFile
  deriving DecidableEq, Repr

/-- Per-inode attributes; the fields `src/memory.rs` reads or writes
(`ino`, `size`, `perm`, `uid`, `gid`, `atime`, `mtime`, `crtime`,
`flags`, `kind`). Times are modelled as naturals. -/
structure FileAttr where
  ino : Nat
  size : Nat
  perm : Nat
  uid : Nat
  gid : Nat
  atime : Nat
  mtime : Nat
  crtime : Nat
  flags : Nat
  kind : FileType
  deriving DecidableEq, Repr

/-- Modelled from the spec: `FileAttr::default()` (its definition lives in
the crate root, which is not among the sources); the spec's create scenario
fixes the default size at zero, and the remaining numeric fields default to
zero likewise, with a regular-file kind. -/
def FileAttr.default : FileAttr :=
  { ino := 0, size := 0, perm := 0, uid := 0, gid := 0, atime := 0,
    mtime := 0, crtime := 0, flags := 0, kind := FileType.RegularFile }

/-- Reply of `getattr`/`setattr` (`ReplyAttr`): an attribute with a TTL, or
an error code. -/
inductive AttrReply where
  | attr (ttl : Nat) (a : FileAttr)
  | error (e : Nat)
  deriving DecidableEq, Repr

/-- Reply of `read` (`ReplyData`): a byte string or an error code. -/
inductive ReadReply where
  | data (d : List Nat)
  | error (e : Nat)
  deriving DecidableEq, Repr

/-- Reply of `write` (`ReplyWrite`): a bytes-written count or an error. -/
inductive WriteReply where
  | written (n : Nat)
  | error (e : Nat)
  deriving DecidableEq, Repr

/-- Reply of `create` (`ReplyCreate`): the new attribute with a TTL, or an
error code. -/
inductive CreateReply where
  | created (ttl : Nat) (a : FileAttr)
  | error (e : Nat)
  deriving DecidableEq, Repr

/-- Reply of `mkdir`/`lookup` (`ReplyEntry`): an entry with a TTL, or an
error code. -/
inductive EntryReply where
  | entry (ttl : Nat) (a : FileAttr)
  | error (e : Nat)
  deriving DecidableEq, Repr

/-- Reply of `unlink`/`rmdir` (`ReplyEmpty`): ok or an error code. -/
inductive EmptyReply where
  | ok
  | error (e : Nat)
  deriving DecidableEq, Repr

/-- One directory entry as passed to `ReplyDirectory::add`: the child
inode, the offset value to resume after this entry, the kind, the name. -/
structure DirEntry where
  ino : Nat
  off : Nat
  kind : FileType
  name : String
  deriving DecidableEq, Repr

/-- Reply of `readdir` (`ReplyDirectory`): the buffered entries followed by
ok, or an error code. -/
inductive ReaddirReply where
  | ok (entries : List DirEntry)
  | error (e : Nat)
  deriving DecidableEq, Repr

/-- The state of `MemoryFS` (`src/memory.rs`): inode counter, inode table
(ino to name and attributes), file data (ino to bytes), and the
parent-to-children link lists. -/
structure MemoryFS where
  maxSize : Nat
  inodesNum : Nat
  inodes : Nat → Option (String × FileAttr)
  data : Nat → Option (List Nat)
  parentChildren : Nat → Option (List Nat)

/-- `MemoryFS::new`: all maps empty, inode counter zero. -/
def MemoryFS.new (maxSize : Nat) : MemoryFS :=
  { maxSize := maxSize, inodesNum := 0, inodes := fun _ => none,
    data := fun _ => none, parentChildren := fun _ => none }

/-- `Filesystem::init` for `MemoryFS`: inserts the root inode 1 (".") and
inode 2 (".."), both directories, gives inode 1 an empty children list and
sets the counter to 2. The source always returns `Ok(())`. -/
def MemoryFS.init (fs : MemoryFS) : MemoryFS :=
  let rootFile : FileAttr := { FileAttr.default with ino := 1, kind := FileType.Directory }
  let parentFile : FileAttr := { FileAttr.default with ino := 2, kind := FileType.Directory }
  { fs with
    inodes := fun i =>
      if i = 2 then some ("..", parentFile)
      else if i = 1 then some (".", rootFile)
      else fs.inodes i,
    parentChildren := fun i => if i = 1 then some [] else fs.parentChildren i,
    inodesNum := 2 }

/-- The freshly mounted state: `MemoryFS::new` followed by `init`. -/
def initFS : MemoryFS := (MemoryFS.new 4096).init

/-- `MemoryFS::get_node_by_name`: scan the parent's children in order and
return the first whose inode-table name matches; children missing from the
inode table are skipped; a parent without a children list yields `None`. -/
def MemoryFS.getNodeByName (fs : MemoryFS) (parent : Nat) (name : String) : Option Nat :=
  match fs.parentChildren parent with
  | some children =>
    children.find? (fun child =>
      match fs.inodes child with
      | some p => p.1 == name
      | none => false)
  | none => none

/-- The `readdir` loop body over the already enumerated-and-skipped
children (global index paired with child inode): each child present in the
inode table contributes an entry tagged `index + 1`; a missing child makes
the whole call reply with an error (`none` here). -/
def readdirEntries (fs : MemoryFS) : List (Nat × Nat) → Option (List DirEntry)
  | [] => some []
  | p :: rest =>
    match fs.inodes p.2 with
    | some q =>
      (readdirEntries fs rest).map
        (fun es => { ino := p.2, off := p.1 + 1, kind := q.2.kind, name := q.1 } :: es)
    | none => none

/-- `MemoryFS::readdir`: if `ino` has a children list, enumerate it,
skip `offset` entries, add one entry per remaining child (tagged with its
global index plus one) and reply ok; a child absent from the inode table
replies ENOENT instead; an `ino` without a children list replies ok with
no entries. -/
def MemoryFS.readdir (fs : MemoryFS) (ino : Nat) (offset : Nat) : ReaddirReply :=
  match fs.parentChildren ino with
  | some children =>
    match readdirEntries fs (children.enum.drop offset) with
    | some es => ReaddirReply.ok es
    | none => ReaddirReply.error ENOENT
  | none => ReaddirReply.ok []

/-- `MemoryFS::rmdir`: the source computes `get_node_by_name` and discards
the result, removes the PARENT from the inode table, then unwraps the
parent's children list (panicking — `none` — when absent) and filters the
parent inode out of it, replying ok. (`name.to_str()` always succeeds for
a Lean `String`, so the ENOENT branch for a non-UTF-8 name is not
reachable in the model.) -/
def MemoryFS.rmdir (fs : MemoryFS) (parent : Nat) (name : String) :
    Option (MemoryFS × EmptyReply) :=
  let _ := fs.getNodeByName parent name
  let fs1 : MemoryFS :=
    { fs with inodes := fun i => if i = parent then none else fs.inodes i }
  match fs1.parentChildren parent with
  | some children =>
    some ({ fs1 with parentChildren := fun i =>
      if i = parent then some (children.filter (fun x => x != parent))
      else fs1.parentChildren i },
      EmptyReply.ok)
  | none => none

/-- `MemoryFS::read`: an inode missing from the data map replies ENOENT;
otherwise the source slices `data[offset..]` unconditionally, which
panics (`none`) whenever `offset` exceeds the stored length; the unused
`size` argument is ignored as in the source. -/
def MemoryFS.read (fs : MemoryFS) (ino : Nat) (offset : Nat) (_sz : Nat) :
    Option ReadReply :=
  match fs.data ino with
  | some d =>
    if offset ≤ d.length then some (ReadReply.data (d.drop offset)) else none
  | none => some (ReadReply.error ENOENT)

/-- `MemoryFS::create`: a parent missing from the inode table replies
ENOENT; otherwise a fresh inode `inodes_num + 1` with default attributes
(regular file, permission 0o755) and empty data is inserted, and the
parent's children list is unwrapped (panic — `none` — when absent) and
extended with the new inode. -/
def MemoryFS.create (fs : MemoryFS) (parent : Nat) (name : String) :
    Option (MemoryFS × CreateReply) :=
  if (fs.inodes parent).isNone then
    some (fs, CreateReply.error ENOENT)
  else
    let ino := fs.inodesNum + 1
    let fileAttr : FileAttr :=
      { FileAttr.default with ino := ino, kind := FileType.RegularFile, perm := 0o755 }
    match fs.parentChildren parent with
    | some children =>
      some ({ fs with
        inodes := fun i => if i = ino then some (name, fileAttr) else fs.inodes i,
        inodesNum := fs.inodesNum + 1,
        data := fun i => if i = ino then some [] else fs.data i,
        parentChildren := fun i =>
          if i = parent then some (children ++ [ino]) else fs.parentChildren i },
        CreateReply.created 1 fileAttr)
    | none => none

/-- `MemoryFS::mkdir`: no parent-existence check; a fresh directory inode
`inodes_num + 1` is inserted with an empty children list, then the
parent's children list is unwrapped (panic — `none` — when absent, e.g.
for a nonexistent parent) and extended with the new inode. -/
def MemoryFS.mkdir (fs : MemoryFS) (parent : Nat) (name : String) :
    Option (MemoryFS × EntryReply) :=
  let ino := fs.inodesNum + 1
  let fileAttr : FileAttr :=
    { FileAttr.default with ino := ino, kind := FileType.Directory, perm := 0o755 }
  let fs1 : MemoryFS :=
    { fs with
      inodes := fun i => if i = ino then some (name, fileAttr) else fs.inodes i,
      inodesNum := fs.inodesNum + 1,
      data := fun i => if i = ino then some [] else fs.data i,
      parentChildren := fun i => if i = ino then some [] else fs.parentChildren i }
  match fs1.parentChildren parent with
  | some children =>
    some ({ fs1 with parentChildren := fun i =>
      if i = parent then some (children ++ [ino]) else fs1.parentChildren i },
      EntryReply.entry 1 fileAttr)
  | none => none

/-- `MemoryFS::setattr`: an inode missing from the table replies ENOENT and
changes nothing; otherwise each supplied (`some`) argument overwrites its
field (`mode` is truncated to 16 bits, `mode as u16`) and the updated
attribute is stored and replied. -/
def MemoryFS.setattr (fs : MemoryFS) (ino : Nat)
    (mode uid gid sz atime mtime crtime flags : Option Nat) :
    MemoryFS × AttrReply :=
  match fs.inodes ino with
  | none => (fs, AttrReply.error ENOENT)
  | some (name, a) =>
    let a1 : FileAttr :=
      { a with
        perm := (mode.map (fun m => m % 65536)).getD a.perm,
        uid := uid.getD a.uid,
        gid := gid.getD a.gid,
        size := sz.getD a.size,
        atime := atime.getD a.atime,
        mtime := mtime.getD a.mtime,
        crtime := crtime.getD a.crtime,
        flags := flags.getD a.flags }
    ({ fs with inodes := fun i => if i = ino then some (name, a1) else fs.inodes i },
     AttrReply.attr 1 a1)

/-- `MemoryFS::write`: an inode missing from the data map replies ENOENT;
an offset strictly beyond the stored length replies ENOENT; otherwise the
vector is zero-resized up to `offset + data.len()` when that exceeds the
current length, the range `[offset, offset + data.len())` is overwritten
with the data, the attribute size is increased by `data.len()` (when the
inode is in the table), and the byte count is replied. -/
def MemoryFS.write (fs : MemoryFS) (ino : Nat) (offset : Nat) (d : List Nat) :
    MemoryFS × WriteReply :=
  match fs.data ino with
  | none => (fs, WriteReply.error ENOENT)
  | some fileData =>
    if offset > fileData.length then (fs, WriteReply.error ENOENT)
    else
      let endPos := offset + d.length
      let resized :=
        if endPos > fileData.length then
          fileData ++ List.replicate (endPos - fileData.length) 0
        else fileData
      let newData := resized.take offset ++ d ++ resized.drop endPos
      ({ fs with
        data := fun i => if i = ino then some newData else fs.data i,
        inodes := fun i =>
          if i = ino then
            (fs.inodes i).map (fun p => (p.1, { p.2 with size := p.2.size + d.length }))
          else fs.inodes i },
       WriteReply.written d.length)

/-- `MemoryFS::unlink`: resolve the child by name; when absent reply
ENOENT and change nothing; when found remove it from the inode table and
the data map, unwrap the parent's children list and filter the child out,
replying ok. -/
def MemoryFS.unlink (fs : MemoryFS) (parent : Nat) (name : String) :
    Option (MemoryFS × EmptyReply) :=
  match fs.getNodeByName parent name with
  | some ino =>
    let fs1 : MemoryFS :=
      { fs with
        inodes := fun i => if i = ino then none else fs.inodes i,
        data := fun i => if i = ino then none else fs.data i }
    match fs1.parentChildren parent with
    | some children =>
      some ({ fs1 with parentChildren := fun i =>
        if i = parent then some (children.filter (fun x => x != ino))
        else fs1.parentChildren i },
        EmptyReply.ok)
    | none => none
  | none => some (fs, EmptyReply.error ENOENT)

/-- Outcome of one `Channel::receive` (or `async_receive`) call: success
filling the buffer, or an I/O error carrying the raw OS error code. The
channel itself is outside the sources, so receive outcomes are the
parameter of the loop model. -/
inductive RecvOutcome (α : Type) where
  | ok (buf : α)
  | err (code : Nat)
  deriving DecidableEq, Repr

/-- Result of running the session loop over a finite trace of receive
outcomes: the loop broke and `run` returned `Ok(())` (`finished`), `run`
returned the error (`failed`), or the trace was exhausted with the loop
still running (`pending`). Each constructor records the requests
dispatched to the filesystem, in order. -/
inductive RunResult (ρ : Type) where
  | finished (dispatched : List ρ)
  | failed (dispatched : List ρ) (code : Nat)
  | pending (dispatched : List ρ)
  deriving DecidableEq, Repr

/-- The error codes `Session::run` silently retries on: ENOENT, EINTR,
EAGAIN. -/
def retryable (code : Nat) : Bool :=
  code == ENOENT || code == EINTR || code == EAGAIN

/-- `Session::run` (`src/session.rs`), as a function of the finite trace of
receive outcomes and of the request decoder (`Request::new`, outside the
sources, abstracted as `decode`): a received buffer that decodes is
dispatched and the loop continues; a buffer that does not decode breaks
the loop (Ok); a retryable error is skipped; ENODEV breaks the loop (Ok);
any other error is returned. The loop issues no reply of its own —
replies happen only inside a dispatch. -/
def runLoop {α ρ : Type} (decode : α → Option ρ) :
    List (RecvOutcome α) → RunResult ρ
  | [] => RunResult.pending []
  | RecvOutcome.ok buf :: rest =>
    match decode buf with
    | some req =>
      match runLoop decode rest with
      | RunResult.finished ds => RunResult.finished (req :: ds)
      | RunResult.failed ds c => RunResult.failed (req :: ds) c
      | RunResult.pending ds => RunResult.pending (req :: ds)
    | none => RunResult.finished []
  | RecvOutcome.err c :: rest =>
    if retryable c then runLoop decode rest
    else if c = ENODEV then RunResult.finished []
    else RunResult.failed [] c

/-- One iteration of the `tokio::select!` race in
`Session::run_with_signal`: either the cancellation channel wins
(`cancel`) or the asynchronous receive completes first (`recv`). The
nondeterministic race is resolved by the trace. -/
inductive SelectEvent (α : Type) where
  | cancel
  | recv (r : RecvOutcome α)
  deriving DecidableEq, Repr

/-- `Session::run_with_signal` (`src/session.rs`), as a function of the
finite trace of resolved select races: a winning cancellation breaks the
loop (Ok) at once; a completed receive is handled exactly as in
`runLoop`. -/
def runWithSignal {α ρ : Type} (decode : α → Option ρ) :
    List (SelectEvent α) → RunResult ρ
  | [] => RunResult.pending []
  | SelectEvent.cancel :: _ => RunResult.finished []
  | SelectEvent.recv (RecvOutcome.ok buf) :: rest =>
    match decode buf with
    | some req =>
      match runWithSignal decode rest with
      | RunResult.finished ds => RunResult.finished (req :: ds)
      | RunResult.failed ds c => RunResult.failed (req :: ds) c
      | RunResult.pending ds => RunResult.pending (req :: ds)
    | none => RunResult.finished []
  | SelectEvent.recv (RecvOutcome.err c) :: rest =>
    if retryable c then runWithSignal decode rest
    else if c = ENODEV then RunResult.finished []
    else RunResult.failed [] c

/-- Claim C1: in the blocking run loop, a receive error whose OS code is
ENOENT, EINTR or EAGAIN is silently retried (the iteration is a no-op: no
termination, nothing surfaced, nothing dispatched, no reply); an ENODEV
error terminates the loop with success; any other error code makes `run`
return that very error code. -/
theorem run_error_classification {α ρ : Type} (decode : α → Option ρ)
    (c : Nat) (rest : List (RecvOutcome α)) :
    ((c = ENOENT ∨ c = EINTR ∨ c = EAGAIN) →
      runLoop decode (RecvOutcome.err c :: rest) = runLoop decode rest) ∧
    runLoop decode (RecvOutcome.err ENODEV :: rest) = RunResult.finished [] ∧
    (c ≠ ENOENT → c ≠ EINTR → c ≠ EAGAIN → c ≠ ENODEV →
      runLoop decode (RecvOutcome.err c :: rest) = RunResult.failed [] c) := by
  refine ⟨?_, ?_, ?_⟩
  · rintro (rfl | rfl | rfl) <;> simp [runLoop, retryable, ENOENT, EINTR, EAGAIN]
  · simp [runLoop, retryable, ENOENT, EINTR, EAGAIN, ENODEV]
  · intro h1 h2 h3 h4
    simp [runLoop, retryable, ENOENT, EINTR, EAGAIN, ENODEV] at h1 h2 h3 h4 ⊢
    simp [h1, h2, h3, h4]

/-- Witness for C1 at concrete inputs: code 4 (EINTR) is retried, code 5 is
neither retryable nor ENODEV and is returned as the loop's error. -/
theorem run_error_classification_witness :
    (4 = ENOENT ∨ 4 = EINTR ∨ 4 = EAGAIN) ∧
    runLoop (fun _ : Unit => (none : Option Unit)) [RecvOutcome.err 4] =
      runLoop (fun _ : Unit => (none : Option Unit)) [] ∧
    (5 ≠ ENOENT ∧ 5 ≠ EINTR ∧ 5 ≠ EAGAIN ∧ 5 ≠ ENODEV) ∧
    runLoop (fun _ : Unit => (none : Option Unit)) [RecvOutcome.err 5] =
      RunResult.failed [] 5 :=
  ⟨by decide,
   (run_error_classification (fun _ : Unit => (none : Option Unit)) 4 []).1 (by decide),
   by decide,
   (run_error_classification (fun _ : Unit => (none : Option Unit)) 5 []).2.2
     (by decide) (by decide) (by decide) (by decide)⟩

/-- Claim C2: when the decoder (`Request::new`) rejects a received buffer,
the run loop terminates at once — nothing is dispatched from that buffer
or any later one, no reply is issued (the loop replies only inside a
dispatch), and `run` returns the clean success result. -/
theorem run_malformed_terminates {α ρ : Type} (decode : α → Option ρ)
    (buf : α) (rest : List (RecvOutcome α)) (h : decode buf = none) :
    runLoop decode (RecvOutcome.ok buf :: rest) = RunResult.finished [] := by
  simp [runLoop, h]

/-- Witness for C2: a decoder rejecting everything makes the loop finish
cleanly on the first received buffer. -/
theorem run_malformed_terminates_witness :
    ((fun _ : Unit => (none : Option Unit)) () = none) ∧
    runLoop (fun _ : Unit => (none : Option Unit))
      [RecvOutcome.ok (), RecvOutcome.err 5] = RunResult.finished [] :=
  ⟨rfl, run_malformed_terminates (fun _ : Unit => (none : Option Unit)) ()
    [RecvOutcome.err 5] rfl⟩

/-- Claim C9: in the cancellable-asynchronous loop, whenever the
cancellation signal wins the select race, the loop exits at once with the
clean success result — cancellation is never reported as a failure — and
nothing from the abandoned receive (or any later event) is dispatched. -/
theorem run_with_signal_cancel {α ρ : Type} (decode : α → Option ρ)
    (rest : List (SelectEvent α)) :
    runWithSignal decode (SelectEvent.cancel :: rest) = RunResult.finished [] := rfl

/-- The state after creating "a.txt" under the root of the freshly
initialized filesystem (new inode 3, empty data). -/
def fsA : MemoryFS :=
  ((MemoryFS.create initFS 1 "a.txt").getD (initFS, CreateReply.error 0)).1

/-- Claim C3 counterexample: on a freshly created empty file (inode 3,
current length 0), a write at offset 10 does NOT succeed with a
zero-filled gap — the source rejects any offset strictly beyond the
current length with ENOENT and leaves the state unchanged. -/
theorem write_gap_rejected_counterexample :
    ∃ fs1 a, MemoryFS.create initFS 1 "a.txt" = some (fs1, CreateReply.created 1 a) ∧
      MemoryFS.write fs1 3 10 [1, 2, 3, 4, 5] = (fs1, WriteReply.error ENOENT) := by
  refine ⟨_, _, rfl, rfl⟩

/-- Claim C3 (amended): every write to an existing object at an offset
strictly greater than the object's current data length is rejected with an
ENOENT error reply and leaves the filesystem state unchanged. -/
theorem write_gap_rejected (fs : MemoryFS) (ino off : Nat) (d fd : List Nat)
    (hd : fs.data ino = some fd) (hoff : fd.length < off) :
    MemoryFS.write fs ino off d = (fs, WriteReply.error ENOENT) := by
  simp [MemoryFS.write, hd, hoff]

/-- Witness for the amended C3: the counterexample input itself — offset 10
on the empty file of `fsA`. -/
theorem write_gap_rejected_witness :
    fsA.data 3 = some [] ∧ List.length ([] : List Nat) < 10 ∧
    MemoryFS.write fsA 3 10 [1, 2, 3, 4, 5] = (fsA, WriteReply.error ENOENT) :=
  ⟨rfl, by decide, write_gap_rejected fsA 3 10 [1, 2, 3, 4, 5] [] rfl (by decide)⟩

/-- Claim C4 (code divergence): on the freshly created empty file, a read
at offset 0 (equal to the length) does reply with an empty result, but a
read at offset 1 — beyond the length — panics (out-of-bounds slice of
`data[offset..]`, modelled as `none`) instead of replying empty. -/
theorem read_beyond_length_panics :
    ∃ fs1 a, MemoryFS.create initFS 1 "a.txt" = some (fs1, CreateReply.created 1 a) ∧
      MemoryFS.read fs1 3 0 5 = some (ReadReply.data []) ∧
      MemoryFS.read fs1 3 1 5 = none := by
  refine ⟨_, _, rfl, rfl, rfl⟩

/-- Claim C5 (code divergence): on the freshly initialized filesystem,
`rmdir` of a nonexistent child "x" under the root does not reply
not-found: the child lookup result is discarded, the call replies ok, and
the PARENT inode 1 itself is deleted from the inode table (while inode 1
keeps a children list), breaking the parent/child consistency the claim
requires; moreover `mkdir` under a nonexistent parent 42 panics (unwrap
of a missing children list, modelled as `none`) instead of replying
not-found. -/
theorem rmdir_removes_parent_bug :
    initFS.getNodeByName 1 "x" = none ∧
    (∃ fs1, MemoryFS.rmdir initFS 1 "x" = some (fs1, EmptyReply.ok) ∧
      fs1.inodes 1 = none ∧ fs1.parentChildren 1 = some []) ∧
    MemoryFS.mkdir initFS 42 "d" = none := by
  refine ⟨rfl, ⟨_, rfl, rfl, rfl⟩, rfl⟩

/-- Claim C6: from the freshly initialized filesystem, `create` of "a.txt"
under parent inode 1 replies with new inode 3 of size zero; a write to
inode 3 at offset 0 with five bytes replies that 5 bytes were written; a
read of inode 3 at offset 0 with size 5 replies with exactly those five
bytes. -/
theorem create_write_read_scenario (b0 b1 b2 b3 b4 : Nat) :
    ∃ fs1 a fs2,
      MemoryFS.create initFS 1 "a.txt" = some (fs1, CreateReply.created 1 a) ∧
      a.ino = 3 ∧ a.size = 0 ∧
      MemoryFS.write fs1 3 0 [b0, b1, b2, b3, b4] = (fs2, WriteReply.written 5) ∧
      MemoryFS.read fs2 3 0 5 = some (ReadReply.data [b0, b1, b2, b3, b4]) := by
  refine ⟨_, _, _, rfl, rfl, rfl, rfl, rfl⟩

/-- The attribute produced by `setattr`'s sparse update: each supplied
(`some`) argument overwrites its field (`mode` truncated to 16 bits);
every unsupplied field — and `ino` and `kind`, which `setattr` never
touches — keeps its old value. -/
def applySetattr (a : FileAttr)
    (mode uid gid sz atime mtime crtime flags : Option Nat) : FileAttr :=
  { a with
    perm := (mode.map (fun m => m % 65536)).getD a.perm,
    uid := uid.getD a.uid,
    gid := gid.getD a.gid,
    size := sz.getD a.size,
    atime := atime.getD a.atime,
    mtime := mtime.getD a.mtime,
    crtime := crtime.getD a.crtime,
    flags := flags.getD a.flags }

/-- Claim C7: `setattr` on an existing inode stores exactly the sparse
update `applySetattr` of the old attribute (supplied fields overwritten,
all other fields kept) under the same name, leaves every other inode and
every other component of the state untouched, and replies with the
updated attribute; supplying no field changes nothing; `setattr` on an
unknown inode replies ENOENT and leaves the state unchanged. -/
theorem setattr_sparse_update (fs : MemoryFS) (ino : Nat)
    (mode uid gid sz atime mtime crtime flags : Option Nat) :
    (∀ name a, fs.inodes ino = some (name, a) →
      MemoryFS.setattr fs ino mode uid gid sz atime mtime crtime flags =
        ({ fs with inodes := fun i =>
            if i = ino then
              (some (name, applySetattr a mode uid gid sz atime mtime crtime flags))
            else fs.inodes i },
         AttrReply.attr 1 (applySetattr a mode uid gid sz atime mtime crtime flags))) ∧
    (∀ a, applySetattr a none none none none none none none none = a) ∧
    (fs.inodes ino = none →
      MemoryFS.setattr fs ino mode uid gid sz atime mtime crtime flags =
        (fs, AttrReply.error ENOENT)) := by
  refine ⟨?_, ?_, ?_⟩
  · intro name a h
    simp [MemoryFS.setattr, h, applySetattr]
  · intro a; rfl
  · intro h
    simp [MemoryFS.setattr, h]

/-- The root attribute installed by `init`. -/
def rootAttrD : FileAttr := { FileAttr.default with ino := 1, kind := FileType.Directory }

/-- Witness for C7: updating only the permission bits of the root inode of
the freshly initialized filesystem. -/
theorem setattr_sparse_update_witness :
    initFS.inodes 1 = some (".", rootAttrD) ∧
    MemoryFS.setattr initFS 1 (some 448) none none none none none none none =
      ({ initFS with inodes := fun i =>
          if i = 1 then
            (some (".", applySetattr rootAttrD (some 448) none none none none none none none))
          else initFS.inodes i },
       AttrReply.attr 1 (applySetattr rootAttrD (some 448) none none none none none none none)) :=
  ⟨rfl, (setattr_sparse_update initFS 1 (some 448) none none none none none none
    none).1 "." rootAttrD rfl⟩

/-- The directory entry `readdir` produces for the enumerated pair
(global index, child inode): the child, the resume offset `index + 1`,
and the child's kind and name from the inode table (the fallback branch
is never reached when the child is present). -/
def entryFor (fs : MemoryFS) (p : Nat × Nat) : DirEntry :=
  match fs.inodes p.2 with
  | some q => { ino := p.2, off := p.1 + 1, kind := q.2.kind, name := q.1 }
  | none => { ino := p.2, off := p.1 + 1, kind := FileType.RegularFile, name := "" }

/-- The `readdir` loop maps `entryFor` over the remaining enumerated
children when each of them is present in the inode table. -/
theorem readdirEntries_eq (fs : MemoryFS) (l : List (Nat × Nat))
    (h : ∀ p ∈ l, (fs.inodes p.2).isSome) :
    readdirEntries fs l = some (l.map (entryFor fs)) := by
  induction l with
  | nil => rfl
  | cons p rest ih =>
    obtain ⟨q, hq⟩ := Option.isSome_iff_exists.mp (h p (List.mem_cons_self p rest))
    have hrest := ih (fun x hx => h x (List.mem_cons_of_mem p hx))
    simp [readdirEntries, entryFor, hq, hrest]

/-- Claim C8: for a directory inode whose children are all present in the
inode table and any resume offset `k`, `readdir` replies ok (the explicit
no-more-entries signal, distinct by constructor from every error reply)
with exactly the children from position `k` on, in the stable list order
(the reply is a function of the state, so repeated calls at the same
offset agree); the j-th returned entry is the child at position `k + j`
and is tagged with resume offset `k + j + 1`, the offset to resume after
it; the enumeration has exactly `children.length - k` entries. -/
theorem readdir_resumable (fs : MemoryFS) (ino k : Nat) (children : List Nat)
    (hch : fs.parentChildren ino = some children)
    (hall : ∀ c ∈ children, (fs.inodes c).isSome) :
    MemoryFS.readdir fs ino k =
      ReaddirReply.ok ((children.enum.drop k).map (entryFor fs)) ∧
    ((children.enum.drop k).map (entryFor fs)).length = children.length - k ∧
    (∀ j e, ((children.enum.drop k).map (entryFor fs))[j]? = some e →
      e.off = k + j + 1 ∧ children[k + j]? = some e.ino) ∧
    (∀ e, ReaddirReply.ok ((children.enum.drop k).map (entryFor fs)) ≠
      ReaddirReply.error e) := by
  have hmem : ∀ p ∈ children.enum.drop k, (fs.inodes p.2).isSome := by
    intro p hp
    have hpe : p ∈ children.enum := List.mem_of_mem_drop hp
    have : children[p.1]? = some p.2 := List.mem_enum_iff_getElem?.mp hpe
    exact hall p.2 (List.getElem?_mem this)
  refine ⟨?_, ?_, ?_, ?_⟩
  · simp [MemoryFS.readdir, hch, readdirEntries_eq fs _ hmem]
  · simp [List.length_map, List.length_drop, List.enum_length]
  · intro j e he
    rw [List.getElem?_map, List.getElem?_drop, List.getElem?_enum] at he
    cases hc : children[k + j]? with
    | none => rw [hc] at he; simp at he
    | some c =>
      rw [hc] at he
      simp at he
      cases hfc : fs.inodes c <;> simp [← he, entryFor, hfc, hc]
  · intro e h
    exact ReaddirReply.noConfusion h

/-- The state after also creating "b.txt" under the root: inode 1 has the
children list [3, 4]. -/
def fsB : MemoryFS :=
  ((MemoryFS.create fsA 1 "b.txt").getD (fsA, CreateReply.error 0)).1

/-- Witness for C8: resuming the enumeration of the root's two children at
offset 1 on a concrete two-file state. -/
theorem readdir_resumable_witness :
    fsB.parentChildren 1 = some [3, 4] ∧
    (∀ c ∈ ([3, 4] : List Nat), (fsB.inodes c).isSome) ∧
    MemoryFS.readdir fsB 1 1 =
      ReaddirReply.ok ((([3, 4] : List Nat).enum.drop 1).map (entryFor fsB)) :=
  ⟨rfl, by decide, (readdir_resumable fsB 1 1 [3, 4] rfl (by decide)).1⟩

/-- Claim C10: a successful write (existing data, offset within the
current length) replies with the byte count, increments the inode's
reported size by exactly that count — even when bytes are overwritten —
and stores data of length `max (old length) (offset + count)`, so after
overwriting writes the reported size exceeds the stored length. -/
theorem write_increments_size (fs : MemoryFS) (ino off : Nat) (d fd : List Nat)
    (name : String) (a : FileAttr)
    (hd : fs.data ino = some fd) (hoff : off ≤ fd.length)
    (ha : fs.inodes ino = some (name, a)) :
    (MemoryFS.write fs ino off d).2 = WriteReply.written d.length ∧
    (MemoryFS.write fs ino off d).1.inodes ino =
      some (name, { a with size := a.size + d.length }) ∧
    ∃ nd, (MemoryFS.write fs ino off d).1.data ino = some nd ∧
      nd.length = max fd.length (off + d.length) := by
  have hnot : ¬ off > fd.length := Nat.not_lt.mpr hoff
  refine ⟨?_, ?_, ?_⟩
  · simp [MemoryFS.write, hd, hnot]
  · simp [MemoryFS.write, hd, hnot, ha]
  · refine ⟨List.take off (if fd.length < off + d.length then
        fd ++ List.replicate (off + d.length - fd.length) 0 else fd) ++
      (d ++ List.drop (off + d.length) (if fd.length < off + d.length then
        fd ++ List.replicate (off + d.length - fd.length) 0 else fd)), ?_, ?_⟩
    · simp [MemoryFS.write, hd, hnot]
    · by_cases hcase : fd.length < off + d.length <;>
        simp [hcase, List.length_take, List.length_replicate, List.length_drop,
          List.length_append] <;> omega

/-- The attribute `create` gives a new regular file. -/
def attrA : FileAttr :=
  { FileAttr.default with ino := 3, kind := FileType.RegularFile, perm := 0o755 }

/-- The state after writing five bytes at offset 0 into the fresh file:
stored data of length 5, reported size 5. -/
def fsC : MemoryFS := (MemoryFS.write fsA 3 0 [9, 9, 9, 9, 9]).1

/-- Witness for C10: the second of two 5-byte writes at offset 0 — the
reported size grows from 5 to 10 while the stored data keeps length
`max 5 (0 + 5) = 5`. -/
theorem write_increments_size_witness :
    fsC.data 3 = some [9, 9, 9, 9, 9] ∧
    0 ≤ List.length [9, 9, 9, 9, 9] ∧
    fsC.inodes 3 = some ("a.txt", { attrA with size := 5 }) ∧
    ((MemoryFS.write fsC 3 0 [7, 7, 7, 7, 7]).2 = WriteReply.written 5 ∧
     (MemoryFS.write fsC 3 0 [7, 7, 7, 7, 7]).1.inodes 3 =
       some ("a.txt", { attrA with size := 10 }) ∧
     ∃ nd, (MemoryFS.write fsC 3 0 [7, 7, 7, 7, 7]).1.data 3 = some nd ∧
       nd.length = max 5 (0 + 5)) :=
  ⟨rfl, by decide, rfl,
   write_increments_size fsC 3 0 [7, 7, 7, 7, 7] [9, 9, 9, 9, 9] "a.txt"
     { attrA with size := 5 } rfl (by decide) rfl⟩
